import Mathlib

/-!
Verification of `supyr_struct/buffer.py` against its specification.

The module provides cursor-based byte buffers:
  * `BytesBuffer` (the spec's ImmutableByteBuffer): an immutable byte
    sequence with a validated `seek` and a rejected `write`;
  * `BytearrayBuffer` (the spec's GrowableByteBuffer): a mutable byte
    sequence with an unvalidated `seek` and an auto-extending `write`;
  * `PeekableMmap` (the spec's MappedFileBuffer): a memory-mapped file with
    an exception-safe `peek`;
  * `get_rawdata` (the spec's RawDataResolver) and `get_rawdata_context`
    (the spec's ScopedRawData).

Python ints are unbounded, so cursors and counts are modelled as `Int`;
byte contents are `List Nat`.  Optional arguments (`count=None`,
`offset=None`) are `Option Int`.  Operations that can raise return an
error alongside the (unmutated) receiver state, mirroring the fact that in
the source every `raise` happens before any assignment to `self._pos`.
-/

namespace SupyrBuffer

/-- Errors raised by the buffer module, by the Python exception that
carries them in the source. -/
inductive BufErr where
  /-- `AssertionError("Read position cannot be negative.")` in `BytesBuffer.seek`. -/
  | assertNeg
  /-- `IndexError('seek position out of range')` in `BytesBuffer.seek`. -/
  | idxOutOfRange
  /-- `ValueError` for an int `whence` other than SEEK_SET/SEEK_CUR/SEEK_END. -/
  | invalidWhence
  /-- `IOError` from `BytesBuffer.write`. -/
  | immutableWrite
  /-- `ValueError` from the mmap primitives (e.g. seek out of range). -/
  | valueError
  deriving DecidableEq, Repr

/-- Python index resolution for a slice endpoint on a sequence of length
`n`: a negative index has `n` added to it, then the result is clamped to
`[0, n]`. -/
def pyIndex (n : Nat) (i : Int) : Nat :=
  if i < 0 then min (i + n).toNat n else min i.toNat n

/-- Python slicing `l[i:j]` (step 1): resolve both endpoints with
`pyIndex`; if the resolved start is at or past the resolved stop the
result is empty. -/
def pySlice (l : List Nat) (i j : Int) : List Nat :=
  (l.take (pyIndex l.length j)).drop (pyIndex l.length i)

/-- Python slice assignment `l[i:j] = data` on a mutable sequence:
resolve the endpoints, raise the stop to at least the start, and splice
`data` in place of the addressed range (the lengths need not match). -/
def pySliceAssign (l : List Nat) (i j : Int) (data : List Nat) : List Nat :=
  let a := pyIndex l.length i
  let b := max a (pyIndex l.length j)
  l.take a ++ data ++ l.drop b

/-- SEEK_SET -/
def SEEK_SET : Int := 0
/-- SEEK_CUR -/
def SEEK_CUR : Int := 1
/-- SEEK_END -/
def SEEK_END : Int := 2

/-! ## BytesBuffer (the spec's ImmutableByteBuffer) -/

/-- `BytesBuffer(bytes, Buffer)`: an immutable byte string together with
the `_pos` cursor added by the `Buffer` mixin. -/
structure BytesBuffer where
  content : List Nat
  pos : Int
  deriving DecidableEq, Repr

/-- `BytesBuffer(data)` construction: the bytes are the argument and
`Buffer.__init__` (reached through the MRO since `bytes` defines no
`__init__`) sets `self._pos = 0`. -/
def mkBytesBuffer (content : List Nat) : BytesBuffer :=
  { content := content, pos := 0 }

/-- `BytesBuffer.tell`. -/
def BytesBuffer.tell (s : BytesBuffer) : Int := s.pos

/-- `BytesBuffer.read(count)`.  With an int `count`: if
`self._pos + count < len(self)` the cursor advances by `count`, otherwise
it is set to `len(self)`; the slice between the old and new cursor is
returned.  With `count=None` the `TypeError` path returns `self[pos:]`
after setting the cursor to the end. -/
def BytesBuffer.read (count : Option Int) (s : BytesBuffer) :
    List Nat × BytesBuffer :=
  match count with
  | some c =>
    if s.pos + c < (s.content.length : Int) then
      (pySlice s.content s.pos (s.pos + c), { s with pos := s.pos + c })
    else
      (pySlice s.content s.pos (s.content.length : Int),
       { s with pos := (s.content.length : Int) })
  | none =>
    (pySlice s.content s.pos (s.content.length : Int),
     { s with pos := (s.content.length : Int) })

/-- `BytesBuffer.seek(pos, whence)`.  Validates the target against
`[0, len(self)]`: a negative target trips the assertion, a target past the
end raises `IndexError`; only then is `self._pos` assigned.  An int
`whence` other than 0/1/2 raises `ValueError`.  The returned state is the
receiver after the call (unchanged whenever an error is reported, exactly
as in the source where the raise precedes the assignment). -/
def BytesBuffer.seek (pos whence : Int) (s : BytesBuffer) :
    Option BufErr × BytesBuffer :=
  if whence = SEEK_SET then
    if pos < 0 then (some .assertNeg, s)
    else if (s.content.length : Int) < pos then (some .idxOutOfRange, s)
    else (none, { s with pos := pos })
  else if whence = SEEK_CUR then
    let p := s.pos + pos
    if p < 0 then (some .assertNeg, s)
    else if (s.content.length : Int) < p then (some .idxOutOfRange, s)
    else (none, { s with pos := p })
  else if whence = SEEK_END then
    let p := pos + (s.content.length : Int)
    if p < 0 then (some .assertNeg, s)
    else if (s.content.length : Int) < p then (some .idxOutOfRange, s)
    else (none, { s with pos := p })
  else (some .invalidWhence, s)

/-- `BytesBuffer.peek(count, offset)`.  Works on a local `pos` (the
offset if given, else the cursor) and never assigns `self._pos`.  With an
int `count` it returns `self[pos:pos+count]` when `pos + count < len`,
else `self[pos:pos+len(self)]`; with `count=None` it returns
`self[pos:]`. -/
def BytesBuffer.peek (count offset : Option Int) (s : BytesBuffer) :
    List Nat × BytesBuffer :=
  let pos := match offset with
    | none => s.pos
    | some o => o
  let data := match count with
    | some c =>
      if pos + c < (s.content.length : Int) then
        pySlice s.content pos (pos + c)
      else
        pySlice s.content pos (pos + (s.content.length : Int))
    | none => pySlice s.content pos (s.content.length : Int)
  (data, s)

/-- `BytesBuffer.write(s)`: always raises `IOError`; the buffer is
untouched. -/
def BytesBuffer.write (_data : List Nat) (s : BytesBuffer) :
    Option BufErr × BytesBuffer :=
  (some .immutableWrite, s)

/-! ## BytearrayBuffer (the spec's GrowableByteBuffer) -/

/-- `BytearrayBuffer(bytearray, Buffer)`: a mutable byte sequence together
with the `_pos` cursor. -/
structure BytearrayBuffer where
  content : List Nat
  pos : Int
  deriving DecidableEq, Repr

/-- `BytearrayBuffer(data)` construction: `__init__` calls
`bytearray.__init__` then `Buffer.__init__`, which sets `self._pos = 0`. -/
def mkBytearrayBuffer (content : List Nat) : BytearrayBuffer :=
  { content := content, pos := 0 }

/-- `BytearrayBuffer.tell`. -/
def BytearrayBuffer.tell (s : BytearrayBuffer) : Int := s.pos

/-- `BytearrayBuffer.read(count)`: same control flow as
`BytesBuffer.read` (advance by `count` when `pos + count < len`, else to
the end, and return the slice between the old and new cursor). -/
def BytearrayBuffer.read (count : Option Int) (s : BytearrayBuffer) :
    List Nat × BytearrayBuffer :=
  match count with
  | some c =>
    if s.pos + c < (s.content.length : Int) then
      (pySlice s.content s.pos (s.pos + c), { s with pos := s.pos + c })
    else
      (pySlice s.content s.pos (s.content.length : Int),
       { s with pos := (s.content.length : Int) })
  | none =>
    (pySlice s.content s.pos (s.content.length : Int),
     { s with pos := (s.content.length : Int) })

/-- `BytearrayBuffer.seek(pos, whence)`: assigns the arithmetic result to
`self._pos` with no bounds check at all; only an unrecognised int `whence`
raises `ValueError`. -/
def BytearrayBuffer.seek (pos whence : Int) (s : BytearrayBuffer) :
    Option BufErr × BytearrayBuffer :=
  if whence = SEEK_SET then (none, { s with pos := pos })
  else if whence = SEEK_CUR then (none, { s with pos := s.pos + pos })
  else if whence = SEEK_END then
    (none, { s with pos := pos + (s.content.length : Int) })
  else (some .invalidWhence, s)

/-- `BytearrayBuffer.peek(count, offset)`: identical to
`BytesBuffer.peek`, computed on a local `pos`, never touching
`self._pos`. -/
def BytearrayBuffer.peek (count offset : Option Int) (s : BytearrayBuffer) :
    List Nat × BytearrayBuffer :=
  let pos := match offset with
    | none => s.pos
    | some o => o
  let data := match count with
    | some c =>
      if pos + c < (s.content.length : Int) then
        pySlice s.content pos (pos + c)
      else
        pySlice s.content pos (pos + (s.content.length : Int))
    | none => pySlice s.content pos (s.content.length : Int)
  (data, s)

/-- `BytearrayBuffer.write(s)`:
`if len(self) < str_len + self._pos: self.extend(b'\x00' * (str_len - len(self) + self._pos))`
then `self[self._pos:self._pos+str_len] = s` and
`self._pos += str_len`.  (`b'\x00' * n` is empty for `n <= 0`, so the
`Int.toNat` in the replicate count is exact.) -/
def BytearrayBuffer.write (data : List Nat) (s : BytearrayBuffer) :
    BytearrayBuffer :=
  let strLen : Int := data.length
  let content1 :=
    if (s.content.length : Int) < strLen + s.pos then
      s.content ++ List.replicate (strLen - s.content.length + s.pos).toNat 0
    else s.content
  { content := pySliceAssign content1 s.pos (s.pos + strLen) data,
    pos := s.pos + strLen }

/-! ## PeekableMmap (the spec's MappedFileBuffer)

The mmap primitives (`mmap.seek`, `mmap.read`, `mmap.tell`) live in
CPython, not in this module.  `mmap.seek(dest)` (absolute) raises
`ValueError` when the destination is outside `[0, size]` and otherwise
just stores it; `mmap.read` is kept abstract — `PeekableMmap.peek` is
parameterised over an arbitrary content-preserving read so that its
cursor-restoration holds even when the underlying read fails. -/

/-- The state of a memory mapping: its bytes and the mapping-owned
cursor. -/
structure MmapState where
  content : List Nat
  pos : Int
  deriving DecidableEq, Repr

/-- `mmap.seek(dest)` with the default whence: `ValueError` outside
`[0, size]`, otherwise store the destination.  The state is returned
unchanged on error. -/
def mmapSeek (dest : Int) (s : MmapState) : Option BufErr × MmapState :=
  if dest < 0 ∨ (s.content.length : Int) < dest then (some .valueError, s)
  else (none, { s with pos := dest })

/-- The type of an underlying `mmap.read`: given the optional count and
the state, produce either bytes or an error, plus the state after the
call. -/
def MmapRead : Type :=
  Option Int → MmapState → Except BufErr (List Nat) × MmapState

/-- `PeekableMmap.peek(count, offset)`: save `tell()`; inside a `try`,
optionally `seek(offset)` then `read(count)`; on any exception, seek back
to the saved position and re-raise; on success, seek back and return the
data.  (A failure of the restoring seek itself would propagate, exactly
as in the source where it sits outside the `try`.) -/
def PeekableMmap.peek (readFn : MmapRead) (count offset : Option Int)
    (s : MmapState) : Except BufErr (List Nat) × MmapState :=
  let origPos := s.pos
  let tryRes : Except BufErr (List Nat) × MmapState :=
    match offset with
    | none => readFn count s
    | some off =>
      match mmapSeek off s with
      | (some e, s1) => (Except.error e, s1)
      | (none, s1) => readFn count s1
  match mmapSeek origPos tryRes.2 with
  | (none, s2) => (tryRes.1, s2)
  | (some e, s2) => (Except.error e, s2)

/-! ## get_rawdata (the spec's RawDataResolver) -/

/-- The `rawdata` keyword argument as the resolver sees it: absent/None,
a `bytes`, a `bytearray`, or any other object, of which only its
truthiness and whether it has `read` and `seek` attributes matter to the
resolver. -/
inductive Rawdata where
  | noData
  | bytesData (b : List Nat)
  | bytearrayData (b : List Nat)
  | objData (truthy hasRead hasSeek : Bool)
  deriving DecidableEq, Repr

/-- Python truthiness of the `rawdata` argument: `None` and empty byte
sequences are falsy; other objects carry their own truthiness. -/
def Rawdata.truthiness : Rawdata → Bool
  | .noData => false
  | .bytesData b => !b.isEmpty
  | .bytearrayData b => !b.isEmpty
  | .objData t _ _ => t

/-- What `get_rawdata` returns (or raises).  The filepath branch opens a
file and memory-maps it — I/O outside the scope of the buffered-data
claims — and is represented by the opaque `fileBacked` outcome. -/
inductive GRResult where
  /-- `TypeError("Provide either rawdata or filepath, not both.")` -/
  | conflictErr
  /-- `TypeError` for rawdata without `read` and `seek` attributes. -/
  | unsupportedErr
  /-- `return None` -/
  | noneResult
  /-- `BytesBuffer(rawdata)` -/
  | bytesBuffer (b : BytesBuffer)
  /-- `BytearrayBuffer(rawdata)` -/
  | bytearrayBuffer (b : BytearrayBuffer)
  /-- duck-typed pass-through: the object returned unchanged -/
  | passThrough (r : Rawdata)
  /-- the filepath branch: a `PeekableMmap` over the file, or the plain
  file handle when the file is empty -/
  | fileBacked
  deriving DecidableEq, Repr

/-- `get_rawdata(filepath=..., rawdata=...)`.  `pathEmpty` is the value
of `is_path_empty(filepath)` (true when no filepath was supplied or the
path is empty). -/
def get_rawdata (pathEmpty : Bool) (rawdata : Rawdata) : GRResult :=
  if !pathEmpty then
    if rawdata.truthiness then .conflictErr else .fileBacked
  else if !rawdata.truthiness then .noneResult
  else
    match rawdata with
    | .bytesData b => .bytesBuffer (mkBytesBuffer b)
    | .bytearrayData b => .bytearrayBuffer (mkBytearrayBuffer b)
    | .objData _ hasRead hasSeek =>
      if hasRead && hasSeek then .passThrough rawdata else .unsupportedErr
    | .noData => .noneResult

/-! ## get_rawdata_context (the spec's ScopedRawData) -/

/-- What calling `close()` on the stored rawdata does: succeed, raise
`AttributeError` (no `close` attribute — e.g. the stored rawdata is
`None` or a `BytesBuffer`), or raise some other exception. -/
inductive CloseOutcome where
  | ok
  | attrError
  | otherError
  deriving DecidableEq, Repr

/-- The observable outcome of `get_rawdata_context.__exit__`: whether
`close()` was invoked on the stored rawdata, and the exception escaping
`__exit__`, if any. -/
structure ExitResult where
  closeCalled : Bool
  raised : Option CloseOutcome
  deriving DecidableEq, Repr

/-- `get_rawdata_context.__init__` sets
`self._close_rawdata = kwargs.get("rawdata") is None`. -/
def ctxCloseFlag (rawdataArg : Option Rawdata) : Bool :=
  rawdataArg.isNone

/-- `get_rawdata_context.__exit__`: `try: if self._close_rawdata:
self._rawdata.close() except AttributeError: return`.  Only
`AttributeError` is caught; any other exception from `close()`
escapes. -/
def ctxExit (closeRawdata : Bool) (closeBehavior : CloseOutcome) :
    ExitResult :=
  if closeRawdata then
    match closeBehavior with
    | .ok => { closeCalled := true, raised := none }
    | .attrError => { closeCalled := true, raised := none }
    | .otherError => { closeCalled := true, raised := some .otherError }
  else { closeCalled := false, raised := none }

/-! ## Helper lemmas about Python slicing at nonnegative indices -/

theorem pyIndex_natCast (n p : Nat) : pyIndex n (p : Int) = min p n := by
  unfold pyIndex
  rw [if_neg (by omega)]
  simp [Int.toNat_natCast]

theorem pyIndex_le (n : Nat) (i : Int) : pyIndex n i ≤ n := by
  unfold pyIndex
  split <;> omega

theorem pySlice_natCast (l : List Nat) (p q : Nat) :
    pySlice l (p : Int) (q : Int) = (l.take q).drop p := by
  unfold pySlice
  rw [pyIndex_natCast, pyIndex_natCast]
  rcases le_total q l.length with hq | hq
  · rcases le_total p l.length with hp | hp
    · rw [min_eq_left hq, min_eq_left hp]
    · rw [min_eq_left hq, min_eq_right hp]
      have hlen : (l.take q).length ≤ l.length := by
        simp [List.length_take]
      rw [List.drop_eq_nil_of_le hlen, List.drop_eq_nil_of_le (by omega)]
  · rw [min_eq_right hq, List.take_length, List.take_of_length_le hq]
    rcases le_total p l.length with hp | hp
    · rw [min_eq_left hp]
    · rw [min_eq_right hp, List.drop_eq_nil_of_le le_rfl,
        List.drop_eq_nil_of_le hp]

theorem pySlice_nil_of_start_ge (l : List Nat) (i j : Int)
    (h : l.length ≤ pyIndex l.length i) : pySlice l i j = [] := by
  unfold pySlice
  exact List.drop_eq_nil_of_le (by simp [List.length_take]; omega)

/-! ## Spec-side formulas -/

/-- The seek-target formula of spec §4.2/§4.3: `pos` for FromStart,
`cursor + pos` for FromCurrent, `L + pos` for FromEnd. -/
def seekTargetSpec (whence pos cur L : Int) : Int :=
  if whence = SEEK_SET then pos
  else if whence = SEEK_CUR then cur + pos
  else L + pos

/-- A cursor within `[0, L]`, the invariant the spec claims for the
immutable backend. -/
def cursorInRange (s : BytesBuffer) : Prop :=
  0 ≤ s.pos ∧ s.pos ≤ (s.content.length : Int)

/-! ## Theorems for the claims -/

/-- C10: every freshly constructed `BytesBuffer` (ImmutableByteBuffer) and
`BytearrayBuffer` (GrowableByteBuffer) starts with its cursor at 0:
`tell()` returns 0 before any other operation. -/
theorem initial_cursor_zero (b a : List Nat) :
    (mkBytesBuffer b).tell = 0 ∧ (mkBytearrayBuffer a).tell = 0 :=
  ⟨rfl, rfl⟩

/-- Characterization of `BytesBuffer.seek` for the three valid whence
modes in terms of the spec's target formula. -/
theorem bytesSeek_char (pos whence : Int) (s : BytesBuffer)
    (hw : whence = SEEK_SET ∨ whence = SEEK_CUR ∨ whence = SEEK_END) :
    s.seek pos whence =
      (if seekTargetSpec whence pos s.pos s.content.length < 0 then
        (some .assertNeg, s)
       else if (s.content.length : Int) <
           seekTargetSpec whence pos s.pos s.content.length then
        (some .idxOutOfRange, s)
       else
        (none, { s with pos := seekTargetSpec whence pos s.pos s.content.length })) := by
  rcases hw with h | h | h <;> subst h <;>
    simp only [seekTargetSpec, BytesBuffer.seek, SEEK_SET, SEEK_CUR, SEEK_END] <;>
    norm_num <;>
    simp only [Int.add_comm]

/-- C2: on an ImmutableByteBuffer of length `L`, `seek(pos, whence)`
computes the target per `seekTargetSpec`; a target outside `[0, L]` makes
the call fail with the cursor (whole state) unchanged; a target inside
sets the cursor to the target.  Concretely, on a 5-byte buffer
`seek(-2, SEEK_END)` yields cursor 3 and `seek(-10, SEEK_END)` fails. -/
theorem bytesBuffer_seek_spec (pos whence : Int) (s : BytesBuffer)
    (hw : whence = SEEK_SET ∨ whence = SEEK_CUR ∨ whence = SEEK_END) :
    (((seekTargetSpec whence pos s.pos s.content.length < 0 ∨
       (s.content.length : Int) < seekTargetSpec whence pos s.pos s.content.length) →
        (((s.seek pos whence).1 = some .assertNeg ∨
          (s.seek pos whence).1 = some .idxOutOfRange)
         ∧ (s.seek pos whence).2 = s))
     ∧ (0 ≤ seekTargetSpec whence pos s.pos s.content.length →
        seekTargetSpec whence pos s.pos s.content.length ≤ (s.content.length : Int) →
        s.seek pos whence =
          (none, { s with pos := seekTargetSpec whence pos s.pos s.content.length })))
    ∧ BytesBuffer.seek (-2) SEEK_END (mkBytesBuffer [1, 2, 3, 4, 5])
        = (none, { content := [1, 2, 3, 4, 5], pos := 3 })
    ∧ (BytesBuffer.seek (-10) SEEK_END (mkBytesBuffer [1, 2, 3, 4, 5])).1.isSome := by
  have hchar := bytesSeek_char pos whence s hw
  refine ⟨⟨?_, ?_⟩, by decide, by decide⟩
  · intro hout
    rw [hchar]
    split_ifs with h1 h2
    · exact ⟨Or.inl rfl, rfl⟩
    · exact ⟨Or.inr rfl, rfl⟩
    · exact absurd hout (by omega)
  · intro h0 hL
    rw [hchar, if_neg (by omega), if_neg (by omega)]

/-- C2 witness: instance of `bytesBuffer_seek_spec` at `whence = SEEK_CUR`
on a concrete buffer. -/
theorem bytesBuffer_seek_spec_witness :
    (((seekTargetSpec SEEK_CUR 2 (1 : Int) ([5, 6, 7] : List Nat).length < 0 ∨
       ((([5, 6, 7] : List Nat).length : Int)) <
         seekTargetSpec SEEK_CUR 2 (1 : Int) ([5, 6, 7] : List Nat).length) →
        (((BytesBuffer.seek 2 SEEK_CUR ⟨[5, 6, 7], 1⟩).1 = some .assertNeg ∨
          (BytesBuffer.seek 2 SEEK_CUR ⟨[5, 6, 7], 1⟩).1 = some .idxOutOfRange)
         ∧ (BytesBuffer.seek 2 SEEK_CUR ⟨[5, 6, 7], 1⟩).2 = ⟨[5, 6, 7], 1⟩))
     ∧ (0 ≤ seekTargetSpec SEEK_CUR 2 (1 : Int) ([5, 6, 7] : List Nat).length →
        seekTargetSpec SEEK_CUR 2 (1 : Int) ([5, 6, 7] : List Nat).length ≤
          ((([5, 6, 7] : List Nat).length : Int)) →
        BytesBuffer.seek 2 SEEK_CUR ⟨[5, 6, 7], 1⟩ =
          (none, { content := [5, 6, 7],
                   pos := seekTargetSpec SEEK_CUR 2 (1 : Int) ([5, 6, 7] : List Nat).length })))
    ∧ BytesBuffer.seek (-2) SEEK_END (mkBytesBuffer [1, 2, 3, 4, 5])
        = (none, { content := [1, 2, 3, 4, 5], pos := 3 })
    ∧ (BytesBuffer.seek (-10) SEEK_END (mkBytesBuffer [1, 2, 3, 4, 5])).1.isSome :=
  bytesBuffer_seek_spec 2 SEEK_CUR ⟨[5, 6, 7], 1⟩ (Or.inr (Or.inl rfl))

/-- C6: on a GrowableByteBuffer, `seek(pos, whence)` with any of the three
whence modes never fails and sets the cursor unconditionally to the
arithmetic target, with no validation against `[0, length]`. -/
theorem bytearrayBuffer_seek_unvalidated (pos whence : Int) (s : BytearrayBuffer)
    (hw : whence = SEEK_SET ∨ whence = SEEK_CUR ∨ whence = SEEK_END) :
    s.seek pos whence =
      (none, { s with pos := seekTargetSpec whence pos s.pos s.content.length }) := by
  rcases hw with h | h | h <;> subst h <;>
    simp only [seekTargetSpec, BytearrayBuffer.seek, SEEK_SET, SEEK_CUR, SEEK_END] <;>
    norm_num <;>
    omega

/-- C6 witness: seeking to `-7` from the end of a 3-byte growable buffer
succeeds and leaves the out-of-range cursor `-4`. -/
theorem bytearrayBuffer_seek_unvalidated_witness :
    BytearrayBuffer.seek (-7) SEEK_END ⟨[5, 6, 7], 1⟩ =
      (none, { content := [5, 6, 7],
               pos := seekTargetSpec SEEK_END (-7) (1 : Int) ([5, 6, 7] : List Nat).length }) :=
  bytearrayBuffer_seek_unvalidated (-7) SEEK_END ⟨[5, 6, 7], 1⟩ (Or.inr (Or.inr rfl))

/-- C4: on an ImmutableByteBuffer over content `C` of length `L` with
cursor `p ∈ [0, L]`, `read(n)` with `n ≥ 0` returns `C[p : min(p+n, L)]`
and leaves the cursor at `min(p+n, L)`; reading past the end returns the
remaining tail without error; `read()` with count omitted returns
`C[p:L]` and sets the cursor to `L`. -/
theorem bytesBuffer_read_spec (s : BytesBuffer) (p n : Nat)
    (hp : s.pos = (p : Int)) (hpL : p ≤ s.content.length) :
    s.read (some (n : Int)) =
      ((s.content.take (min (p + n) s.content.length)).drop p,
       { s with pos := ((min (p + n) s.content.length : Nat) : Int) })
    ∧ s.read none =
      (s.content.drop p, { s with pos := (s.content.length : Int) }) := by
  constructor
  · simp only [BytesBuffer.read, hp]
    have hcast : (p : Int) + (n : Int) = ((p + n : Nat) : Int) := by push_cast; ring
    split_ifs with h
    · have hlt : p + n < s.content.length := by exact_mod_cast hcast ▸ h
      rw [hcast, pySlice_natCast, min_eq_left (by omega)]
    · have hge : s.content.length ≤ p + n := by
        have := hcast ▸ h
        exact_mod_cast Int.not_lt.mp this
      rw [pySlice_natCast, min_eq_right (by omega), List.take_length]
  · simp only [BytesBuffer.read, hp]
    rw [pySlice_natCast, List.take_length]

/-- C4 witness: reading 5 bytes from cursor 1 of a 3-byte immutable
buffer returns the 2-byte tail and moves the cursor to 3; an omitted
count does the same. -/
theorem bytesBuffer_read_spec_witness :
    (BytesBuffer.read (some ((5 : Nat) : Int)) ⟨[7, 8, 9], (1 : Nat)⟩ =
      ((([7, 8, 9] : List Nat).take (min (1 + 5) ([7, 8, 9] : List Nat).length)).drop 1,
       { content := [7, 8, 9],
         pos := ((min (1 + 5) ([7, 8, 9] : List Nat).length : Nat) : Int) })
    ∧ BytesBuffer.read none ⟨[7, 8, 9], (1 : Nat)⟩ =
      (([7, 8, 9] : List Nat).drop 1,
       { content := [7, 8, 9], pos := (([7, 8, 9] : List Nat).length : Int) })) :=
  bytesBuffer_read_spec ⟨[7, 8, 9], (1 : Nat)⟩ 1 5 rfl (by decide)

/-- C5 counterexample: the claim quantifies over *any* integer count, but
`read(-1)` on a fresh 5-byte immutable buffer moves the cursor to `-1`,
outside `[0, L]`. -/
theorem bytesBuffer_cursor_range_cex :
    ¬ cursorInRange ((BytesBuffer.read (some (-1)) (mkBytesBuffer [1, 2, 3, 4, 5])).2) := by
  unfold cursorInRange
  decide

/-- C5 (amended): on an ImmutableByteBuffer with cursor in `[0, L]`, the
cursor stays in `[0, L]` after every `read` with a *nonnegative* count or
an omitted count, every `seek` (successful or failing, any whence),
every `peek`, and every `write` attempt.  (A negative read count can
drive the cursor negative, see the counterexample.) -/
theorem bytesBuffer_cursor_in_range (s : BytesBuffer)
    (h0 : 0 ≤ s.pos) (hL : s.pos ≤ (s.content.length : Int)) :
    (∀ n : Int, 0 ≤ n → cursorInRange ((s.read (some n)).2))
    ∧ cursorInRange ((s.read none).2)
    ∧ (∀ pos whence : Int, cursorInRange ((s.seek pos whence).2))
    ∧ (∀ count offset : Option Int, cursorInRange ((s.peek count offset).2))
    ∧ (∀ data : List Nat, cursorInRange ((s.write data).2)) := by
  refine ⟨?_, ?_, ?_, ?_, ?_⟩
  · intro n hn
    simp only [BytesBuffer.read, cursorInRange]
    split_ifs with h <;> simp <;> omega
  · simp only [BytesBuffer.read, cursorInRange]
    simp
  · intro pos whence
    simp only [BytesBuffer.seek, cursorInRange]
    split_ifs <;> simp <;> omega
  · intro count offset
    exact ⟨h0, hL⟩
  · intro data
    exact ⟨h0, hL⟩

/-- C5 witness: instance of the amended theorem on a fresh 2-byte
buffer. -/
theorem bytesBuffer_cursor_in_range_witness :
    (∀ n : Int, 0 ≤ n →
      cursorInRange ((BytesBuffer.read (some n) (mkBytesBuffer [4, 4])).2))
    ∧ cursorInRange ((BytesBuffer.read none (mkBytesBuffer [4, 4])).2)
    ∧ (∀ pos whence : Int,
      cursorInRange ((BytesBuffer.seek pos whence (mkBytesBuffer [4, 4])).2))
    ∧ (∀ count offset : Option Int,
      cursorInRange ((BytesBuffer.peek count offset (mkBytesBuffer [4, 4])).2))
    ∧ (∀ data : List Nat,
      cursorInRange ((BytesBuffer.write data (mkBytesBuffer [4, 4])).2)) :=
  bytesBuffer_cursor_in_range (mkBytesBuffer [4, 4]) (by decide) (by decide)

/-- C7 counterexample: after the unvalidated `seek(-3)`, `read(2)` on a
5-byte growable buffer returns exactly 2 bytes — `[30, 40]`, Python's
wrap-around slice — not "fewer or zero bytes", and not what a cursor
clamped to `[0, length]` (i.e. 0) would read. -/
theorem bytearrayBuffer_read_clamp_cex :
    (BytearrayBuffer.seek (-3) SEEK_SET ⟨[10, 20, 30, 40, 50], 0⟩).2
      = ⟨[10, 20, 30, 40, 50], -3⟩
    ∧ (BytearrayBuffer.read (some 2) ⟨[10, 20, 30, 40, 50], -3⟩).1 = [30, 40]
    ∧ ¬ ((BytearrayBuffer.read (some 2) ⟨[10, 20, 30, 40, 50], -3⟩).1.length < 2)
    ∧ (BytearrayBuffer.read (some 2) ⟨[10, 20, 30, 40, 50], -3⟩).1
        ≠ (BytearrayBuffer.read (some 2) ⟨[10, 20, 30, 40, 50], 0⟩).1 := by
  decide

/-- C7 (amended): `BytearrayBuffer.read` is total (never fails, by
construction in the source: no raise on the int-count path); a cursor at
or past the end yields zero bytes for every count; and for a nonnegative
in-range cursor the read follows the slicing policy, yielding at most the
requested number of bytes.  A *negative* cursor however follows Python's
wrap-around slicing rather than clamping to `[0, length]` (see the
counterexample). -/
theorem bytearrayBuffer_read_amended (s : BytearrayBuffer)
    (count : Option Int) (n p : Nat) (hp : s.pos = (p : Int)) :
    (s.content.length ≤ p → (s.read count).1 = [])
    ∧ (p ≤ s.content.length →
        s.read (some (n : Int)) =
          ((s.content.take (min (p + n) s.content.length)).drop p,
           { s with pos := ((min (p + n) s.content.length : Nat) : Int) })) := by
  constructor
  · intro hge
    have hstart : s.content.length ≤ pyIndex s.content.length (p : Int) := by
      rw [pyIndex_natCast]; omega
    match count with
    | some c =>
      simp only [BytearrayBuffer.read, hp]
      split_ifs with h <;> exact pySlice_nil_of_start_ge _ _ _ hstart
    | none =>
      simp only [BytearrayBuffer.read, hp]
      exact pySlice_nil_of_start_ge _ _ _ hstart
  · intro hpL
    simp only [BytearrayBuffer.read, hp]
    have hcast : (p : Int) + (n : Int) = ((p + n : Nat) : Int) := by push_cast; ring
    split_ifs with h
    · have hlt : p + n < s.content.length := by exact_mod_cast hcast ▸ h
      rw [hcast, pySlice_natCast, min_eq_left (by omega)]
    · have hge : s.content.length ≤ p + n := by
        have := hcast ▸ h
        exact_mod_cast Int.not_lt.mp this
      rw [pySlice_natCast, min_eq_right (by omega), List.take_length]

/-- C7 witness: instance of the amended theorem at cursor 7 past the end
of a 5-byte buffer (zero bytes) and with the in-range branch at `p = 7 >
5` vacuous. -/
theorem bytearrayBuffer_read_amended_witness :
    ((([10, 20, 30, 40, 50] : List Nat).length ≤ 7 →
      (BytearrayBuffer.read (some (-2)) ⟨[10, 20, 30, 40, 50], (7 : Nat)⟩).1 = [])
    ∧ (7 ≤ ([10, 20, 30, 40, 50] : List Nat).length →
        BytearrayBuffer.read (some ((3 : Nat) : Int)) ⟨[10, 20, 30, 40, 50], (7 : Nat)⟩ =
          ((([10, 20, 30, 40, 50] : List Nat).take
              (min (7 + 3) ([10, 20, 30, 40, 50] : List Nat).length)).drop 7,
           { content := [10, 20, 30, 40, 50],
             pos := ((min (7 + 3) ([10, 20, 30, 40, 50] : List Nat).length : Nat) : Int) }))) :=
  bytearrayBuffer_read_amended ⟨[10, 20, 30, 40, 50], (7 : Nat)⟩ (some (-2)) 3 7 rfl

/-- C3: on a GrowableByteBuffer with length `old_length`, nonnegative
cursor `p`, and `p + len(data) > old_length`, `write(data)` extends the
backing store (new length `p + len(data)`, hence
`length ≥ cursor + len(data)`), the gap `[old_length, p)` is zero-filled
(stated structurally: the slice of the result between `old_length` and
`p` is all zero bytes), `[p, p + len(data))` holds `data`, and the cursor
advances by `len(data)`.  The claim's concrete instance — writing
`[1, 2]` at cursor 5 into a length-2 buffer — is included literally. -/
theorem bytearrayBuffer_write_spec (data : List Nat) (s : BytearrayBuffer)
    (p : Nat) (hp : s.pos = (p : Int))
    (hover : (s.content.length : Int) < s.pos + data.length) :
    (s.write data).content.length = p + data.length
    ∧ ((s.write data).content.take p).drop s.content.length
        = List.replicate (p - s.content.length) 0
    ∧ (s.write data).content.drop p = data
    ∧ (s.write data).pos = s.pos + data.length
    ∧ BytearrayBuffer.write [1, 2] ⟨[9, 9], 5⟩ = ⟨[9, 9, 0, 0, 0, 1, 2], 7⟩ := by
  have hover' : s.content.length < p + data.length := by
    rw [hp] at hover; omega
  have hwc : (s.write data).content
      = (s.content ++
          List.replicate (p + data.length - s.content.length) 0).take p ++ data := by
    simp only [BytearrayBuffer.write, pySliceAssign, hp]
    rw [if_pos (by omega)]
    have hk : ((data.length : Int) - (s.content.length : Int) + (p : Int)).toNat
        = p + data.length - s.content.length := by omega
    rw [hk]
    have hcast : (p : Int) + (data.length : Int)
        = ((p + data.length : Nat) : Int) := by push_cast; ring
    have hn1 : (s.content ++
        List.replicate (p + data.length - s.content.length) 0).length
        = p + data.length := by
      simp only [List.length_append, List.length_replicate]
      omega
    rw [hcast, pyIndex_natCast, pyIndex_natCast, hn1]
    rw [min_eq_left (by omega), min_eq_left (by omega),
      max_eq_right (by omega), List.drop_eq_nil_of_le hn1.le,
      List.append_nil]
  have hlen1 : ((s.content ++
      List.replicate (p + data.length - s.content.length) 0).take p).length
      = p := by
    simp only [List.length_take, List.length_append, List.length_replicate]
    omega
  refine ⟨?_, ?_, ?_, ?_, by decide⟩
  · rw [hwc]
    simp only [List.length_append, hlen1]
  · rw [hwc, List.take_append_of_le_length (le_of_eq hlen1.symm),
      List.take_take, min_self]
    rcases le_or_lt s.content.length p with hLp | hpL
    · rw [List.take_append_eq_append_take,
        List.take_of_length_le hLp, List.take_replicate, List.drop_left]
      congr 1
      omega
    · rw [List.take_append_of_le_length (by omega)]
      rw [List.drop_eq_nil_of_le
        (by simp only [List.length_take]; omega)]
      have h0 : p - s.content.length = 0 := by omega
      rw [h0, List.replicate_zero]
  · rw [hwc]
    have h3 := List.drop_left
      ((s.content ++ List.replicate (p + data.length - s.content.length) 0).take p) data
    rwa [hlen1] at h3
  · simp only [BytearrayBuffer.write]

/-- C3 witness: instance at the claim's concrete example — cursor 5,
2-byte buffer `[9, 9]`, data `[1, 2]`. -/
theorem bytearrayBuffer_write_spec_witness :
    (BytearrayBuffer.write [1, 2] ⟨[9, 9], (5 : Nat)⟩).content.length = 5 + 2
    ∧ ((BytearrayBuffer.write [1, 2] ⟨[9, 9], (5 : Nat)⟩).content.take 5).drop 2
        = List.replicate (5 - 2) 0
    ∧ (BytearrayBuffer.write [1, 2] ⟨[9, 9], (5 : Nat)⟩).content.drop 5 = [1, 2]
    ∧ (BytearrayBuffer.write [1, 2] ⟨[9, 9], (5 : Nat)⟩).pos = (5 : Nat) + 2 := by
  have h := bytearrayBuffer_write_spec [1, 2] ⟨[9, 9], (5 : Nat)⟩ 5 rfl (by decide)
  exact ⟨h.1, h.2.1, h.2.2.1, h.2.2.2.1⟩

/-- `mmapSeek` never changes the mapped content. -/
theorem mmapSeek_content (dest : Int) (s : MmapState) :
    ((mmapSeek dest s).2).content = s.content := by
  unfold mmapSeek
  split <;> rfl

/-- A valid `mmapSeek` destination succeeds and stores it. -/
theorem mmapSeek_ok (dest : Int) (s : MmapState)
    (h0 : 0 ≤ dest) (hL : dest ≤ (s.content.length : Int)) :
    mmapSeek dest s = (none, { s with pos := dest }) := by
  unfold mmapSeek
  rw [if_neg (by omega)]

/-- `PeekableMmap.peek` restores the saved cursor on every path — data
returned, seek-to-offset failure, or a failing underlying read — as long
as the saved cursor was valid and the read preserves the content. -/
theorem peekMmap_restore (readFn : MmapRead) (count offset : Option Int)
    (sm : MmapState) (h0 : 0 ≤ sm.pos)
    (hL : sm.pos ≤ (sm.content.length : Int))
    (hRead : ∀ c t, ((readFn c t).2).content = t.content) :
    ((PeekableMmap.peek readFn count offset sm).2).pos = sm.pos := by
  cases offset with
  | none =>
    rcases hr : readFn count sm with ⟨res, s1⟩
    have hc : s1.content = sm.content := by
      have h := hRead count sm
      rw [hr] at h
      exact h
    have hseek : mmapSeek sm.pos s1 = (none, { s1 with pos := sm.pos }) :=
      mmapSeek_ok sm.pos s1 h0 (by rw [hc]; omega)
    simp [PeekableMmap.peek, hr, hseek]
  | some off =>
    rcases hs : mmapSeek off sm with ⟨err, s1⟩
    have hc1 : s1.content = sm.content := by
      have h := mmapSeek_content off sm
      rw [hs] at h
      exact h
    cases err with
    | some e =>
      have hseek : mmapSeek sm.pos s1 = (none, { s1 with pos := sm.pos }) :=
        mmapSeek_ok sm.pos s1 h0 (by rw [hc1]; omega)
      simp [PeekableMmap.peek, hs, hseek]
    | none =>
      rcases hr : readFn count s1 with ⟨res, s2⟩
      have hc2 : s2.content = sm.content := by
        have h := hRead count s1
        rw [hr] at h
        rw [h, hc1]
      have hseek : mmapSeek sm.pos s2 = (none, { s2 with pos := sm.pos }) :=
        mmapSeek_ok sm.pos s2 h0 (by rw [hc2]; omega)
      simp [PeekableMmap.peek, hs, hr, hseek]

/-- C1: `peek(count, offset)` never changes the cursor on any backend.
`BytesBuffer.peek` and `BytearrayBuffer.peek` return the whole receiver
state untouched (they compute on a local position and never assign
`self._pos`), and `PeekableMmap.peek` restores the saved position both
when it returns bytes and when the seek-to-offset or the underlying read
fails and the call raises. -/
theorem peek_preserves_cursor (count offset : Option Int)
    (sb : BytesBuffer) (sa : BytearrayBuffer)
    (readFn : MmapRead) (sm : MmapState)
    (h0 : 0 ≤ sm.pos) (hL : sm.pos ≤ (sm.content.length : Int))
    (hRead : ∀ c t, ((readFn c t).2).content = t.content) :
    ((sb.peek count offset).2).tell = sb.tell
    ∧ ((sa.peek count offset).2).tell = sa.tell
    ∧ ((PeekableMmap.peek readFn count offset sm).2).pos = sm.pos :=
  ⟨rfl, rfl, peekMmap_restore readFn count offset sm h0 hL hRead⟩

/-- C1 witness: concrete peeks — including a mapped-file peek whose
underlying read always fails — leave the cursor where it was. -/
theorem peek_preserves_cursor_witness :
    ((BytesBuffer.peek (some 1) (some 2) ⟨[1, 2, 3], 1⟩).2).tell
        = BytesBuffer.tell ⟨[1, 2, 3], 1⟩
    ∧ ((BytearrayBuffer.peek (some 1) (some 2) ⟨[4, 5], 1⟩).2).tell
        = BytearrayBuffer.tell ⟨[4, 5], 1⟩
    ∧ ((PeekableMmap.peek (fun _ t => (Except.error BufErr.valueError, t))
          (some 1) (some 2) ⟨[1, 2, 3], 1⟩).2).pos = (1 : Int) :=
  peek_preserves_cursor (some 1) (some 2) ⟨[1, 2, 3], 1⟩ ⟨[4, 5], 1⟩
    (fun _ t => (Except.error BufErr.valueError, t)) ⟨[1, 2, 3], 1⟩
    (by decide) (by decide) (fun _ _ => rfl)

/-- C8: the resolver.  With a non-empty filepath and truthy rawdata it
fails with the conflict error; with only non-empty `bytes` it returns a
`BytesBuffer` (ImmutableByteBuffer) wrapping exactly those bytes; with
only a non-empty `bytearray` it returns a `BytearrayBuffer`
(GrowableByteBuffer) over that content; with any other truthy rawdata it
passes the object through unchanged when it has `read` and `seek`
attributes and fails with the unsupported-type error when it does not;
with no path and falsy rawdata it returns `None`. -/
theorem get_rawdata_spec :
    (∀ r : Rawdata, r.truthiness = true → get_rawdata false r = .conflictErr)
    ∧ (∀ b : List Nat, b ≠ [] →
        get_rawdata true (.bytesData b) = .bytesBuffer (mkBytesBuffer b))
    ∧ (∀ b : List Nat, b ≠ [] →
        get_rawdata true (.bytearrayData b) = .bytearrayBuffer (mkBytearrayBuffer b))
    ∧ (∀ hasRead hasSeek : Bool,
        get_rawdata true (.objData true hasRead hasSeek) =
          if hasRead && hasSeek then .passThrough (.objData true hasRead hasSeek)
          else .unsupportedErr)
    ∧ (∀ r : Rawdata, r.truthiness = false → get_rawdata true r = .noneResult) := by
  refine ⟨?_, ?_, ?_, ?_, ?_⟩
  · intro r hr
    simp [get_rawdata, hr]
  · intro b hb
    have hb' : b.isEmpty = false := by
      cases b with
      | nil => exact absurd rfl hb
      | cons x xs => rfl
    simp [get_rawdata, Rawdata.truthiness, hb']
  · intro b hb
    have hb' : b.isEmpty = false := by
      cases b with
      | nil => exact absurd rfl hb
      | cons x xs => rfl
    simp [get_rawdata, Rawdata.truthiness, hb']
  · intro hasRead hasSeek
    simp [get_rawdata, Rawdata.truthiness]
  · intro r hr
    simp [get_rawdata, hr]

/-- C8 witness: concrete resolver calls for each case. -/
theorem get_rawdata_spec_witness :
    get_rawdata false (.bytesData [7]) = .conflictErr
    ∧ get_rawdata true (.bytesData [7]) = .bytesBuffer (mkBytesBuffer [7])
    ∧ get_rawdata true (.bytearrayData [7]) = .bytearrayBuffer (mkBytearrayBuffer [7])
    ∧ get_rawdata true (.objData true true false) =
        (if true && false then .passThrough (.objData true true false)
         else .unsupportedErr)
    ∧ get_rawdata true .noData = .noneResult :=
  ⟨get_rawdata_spec.1 (.bytesData [7]) rfl,
   get_rawdata_spec.2.1 [7] (by decide),
   get_rawdata_spec.2.2.1 [7] (by decide),
   get_rawdata_spec.2.2.2.1 true false,
   get_rawdata_spec.2.2.2.2 .noData rfl⟩

/-- C9 counterexample: the source's `__exit__` catches only
`AttributeError`.  With rawdata not supplied by the caller (so the
close-on-exit flag is set) and a created resource whose `close()` raises
some other exception, that exception escapes `__exit__` — the claim that
*any* failure during the close is suppressed is false. -/
theorem ctxExit_suppress_cex :
    ctxCloseFlag none = true
    ∧ (ctxExit (ctxCloseFlag none) .otherError).raised = some .otherError := by
  decide

/-- C9 (amended): on scope exit, if rawdata was not caller-supplied the
stored resource's `close()` is invoked; a failure because the resource
lacks a `close` capability (`AttributeError`) is suppressed, but any
other exception from `close()` propagates to the caller.  If rawdata was
caller-supplied, scope exit never calls `close()` and nothing is
raised. -/
theorem ctxExit_spec (rawdataArg : Option Rawdata) (cb : CloseOutcome) :
    (rawdataArg = none →
      (ctxExit (ctxCloseFlag rawdataArg) cb).closeCalled = true
      ∧ (cb ≠ .otherError → (ctxExit (ctxCloseFlag rawdataArg) cb).raised = none)
      ∧ (cb = .otherError →
          (ctxExit (ctxCloseFlag rawdataArg) cb).raised = some .otherError))
    ∧ (∀ r : Rawdata, rawdataArg = some r →
        (ctxExit (ctxCloseFlag rawdataArg) cb).closeCalled = false
        ∧ (ctxExit (ctxCloseFlag rawdataArg) cb).raised = none) := by
  constructor
  · rintro rfl
    cases cb with
    | ok => exact ⟨rfl, fun _ => rfl, fun h => absurd h (by decide)⟩
    | attrError => exact ⟨rfl, fun _ => rfl, fun h => absurd h (by decide)⟩
    | otherError => exact ⟨rfl, fun h => absurd rfl h, fun _ => rfl⟩
  · rintro r rfl
    exact ⟨rfl, rfl⟩

/-- C9 witness: instances of the amended theorem with rawdata absent and
a well-behaved close, and with caller-supplied rawdata. -/
theorem ctxExit_spec_witness :
    ((none : Option Rawdata) = none →
      (ctxExit (ctxCloseFlag none) .ok).closeCalled = true
      ∧ (CloseOutcome.ok ≠ .otherError →
          (ctxExit (ctxCloseFlag none) .ok).raised = none)
      ∧ (CloseOutcome.ok = .otherError →
          (ctxExit (ctxCloseFlag none) .ok).raised = some .otherError))
    ∧ (∀ r : Rawdata, (none : Option Rawdata) = some r →
        (ctxExit (ctxCloseFlag none) .ok).closeCalled = false
        ∧ (ctxExit (ctxCloseFlag none) .ok).raised = none) :=
  ctxExit_spec none .ok

end SupyrBuffer
